import Mathlib

/-!
Verification of the span-processing core of `opentelemetry-rust`
(`src/opentelemetry/src/sdk/trace/span_processor.rs`), as a shallow
embedding in Lean 4.

Modelling conventions:
* `SpanData` is an arbitrary type parameter `α` (the processor treats
  spans as opaque queueable units).
* Durations are natural numbers of milliseconds.
* The process environment is a function `String → Option String`
  (`env::var(name).ok()`).
* The exporter is an oracle `exp : List α → ExportResult` giving the
  per-batch outcome of `export_with_timeout`; which side of the
  `futures::future::select` race finishes first is modelled by an
  explicit `SelectOutcome` input.
* The batch worker's drain loop (`while !spans.is_empty() { split_off … }`)
  is embedded with explicit fuel returning `Option`, with `none`
  modelling divergence of the loop (which the Rust loop exhibits when
  `max_export_batch_size = 0` and the buffer is non-empty).
* The worker's observable behaviour is a trace of `WorkerEvent`s:
  `exporter.export(batch)` calls, the `exporter.shutdown()` call,
  replies sent on a `oneshot` channel, and `global::handle_error`
  reports.
-/

/-- Embeds the error kinds of `TraceError` that the batch processor
itself produces or inspects: `ExportTimedOut(Duration)` and
`Other(String)` for exporter-produced failures. -/
inductive TraceError where
  | exportTimedOut (millis : Nat)
  | other (msg : String)
deriving DecidableEq, Repr

/-- Embeds `ExportResult = Result<(), TraceError>` (also used for
`TraceResult<()>`, which has the same shape). -/
inductive ExportResult where
  | ok
  | error (e : TraceError)
deriving DecidableEq, Repr

/-- Embeds the caller-side loop in `BatchSpanProcessor::force_flush` and
`BatchSpanProcessor::shutdown`:
`for result in block_on(res_receiver)? { result?; } Ok(())` —
folds the worker's reply list into the caller's single result. -/
def collectResults : List ExportResult → ExportResult
  | [] => ExportResult.ok
  | ExportResult.ok :: rest => collectResults rest
  | ExportResult.error e :: _ => ExportResult.error e

/-- The outcome of `futures::future::select(export, timeout)`:
`Either::Left` means the exporter's `export` future completed first
(carrying its result); `Either::Right` means the `delay(time_out)`
sleep completed first. -/
inductive SelectOutcome where
  | left (exportRes : ExportResult)
  | right
deriving DecidableEq, Repr

/-- Embeds `export_with_timeout`: the match on the winner of
`futures::future::select(export, timeout)`. -/
def export_with_timeout (timeOut : Nat) (sel : SelectOutcome) : ExportResult :=
  match sel with
  | SelectOutcome.left exportRes => exportRes
  | SelectOutcome.right => ExportResult.error (TraceError.exportTimedOut timeOut)

/-! ### Configuration: environment variables, defaults, resolution -/

def OTEL_BSP_SCHEDULE_DELAY : String := "OTEL_BSP_SCHEDULE_DELAY"

def OTEL_BSP_SCHEDULE_DELAY_DEFAULT : Nat := 5000

def OTEL_BSP_MAX_QUEUE_SIZE : String := "OTEL_BSP_MAX_QUEUE_SIZE"

def OTEL_BSP_MAX_QUEUE_SIZE_DEFAULT : Nat := 2048

def OTEL_BSP_MAX_EXPORT_BATCH_SIZE : String := "OTEL_BSP_MAX_EXPORT_BATCH_SIZE"

def OTEL_BSP_MAX_EXPORT_BATCH_SIZE_DEFAULT : Nat := 512

def OTEL_BSP_EXPORT_TIMEOUT : String := "OTEL_BSP_EXPORT_TIMEOUT"

def OTEL_BSP_EXPORT_TIMEOUT_DEFAULT : Nat := 30000

/-- Embeds `usize::from_str` / `u64::from_str` on a 64-bit platform:
an optional leading `+`, then one or more ASCII digits, rejecting
anything else (including negative numbers) and values that overflow
64 bits. -/
def parseUnsigned (s : String) : Option Nat :=
  let cs := s.data
  let cs :=
    match cs with
    | '+' :: rest => rest
    | other => other
  if cs.isEmpty then none
  else if cs.all Char.isDigit then
    let v := cs.foldl (fun acc c => acc * 10 + (c.toNat - 48)) 0
    if v < 2 ^ 64 then some v else none
  else none

/-- Embeds the `BatchConfig` struct (durations in milliseconds). -/
structure BatchConfig where
  maxQueueSize : Nat
  scheduledDelay : Nat
  maxExportBatchSize : Nat
  maxExportTimeout : Nat
deriving DecidableEq, Repr

/-- Embeds `impl Default for BatchConfig`: start from the documented
defaults, apply each environment override when the variable parses,
clamp `max_export_batch_size` to `max_queue_size`, then apply the
export-timeout override. `env` is the process environment. -/
def batchConfigDefault (env : String → Option String) : BatchConfig :=
  let config : BatchConfig :=
    { maxQueueSize := OTEL_BSP_MAX_QUEUE_SIZE_DEFAULT
      scheduledDelay := OTEL_BSP_SCHEDULE_DELAY_DEFAULT
      maxExportBatchSize := OTEL_BSP_MAX_EXPORT_BATCH_SIZE_DEFAULT
      maxExportTimeout := OTEL_BSP_EXPORT_TIMEOUT_DEFAULT }
  let config : BatchConfig :=
    match (env OTEL_BSP_MAX_QUEUE_SIZE).bind parseUnsigned with
    | some maxQueueSize => { config with maxQueueSize := maxQueueSize }
    | none => config
  let config : BatchConfig :=
    match ((env OTEL_BSP_SCHEDULE_DELAY).orElse
        (fun _ => env "OTEL_BSP_SCHEDULE_DELAY_MILLIS")).bind parseUnsigned with
    | some scheduledDelay => { config with scheduledDelay := scheduledDelay }
    | none => config
  let config : BatchConfig :=
    match (env OTEL_BSP_MAX_EXPORT_BATCH_SIZE).bind parseUnsigned with
    | some maxExportBatchSize => { config with maxExportBatchSize := maxExportBatchSize }
    | none => config
  -- max export batch size must be less or equal to max queue size
  let config : BatchConfig :=
    if config.maxExportBatchSize > config.maxQueueSize then
      { config with maxExportBatchSize := config.maxQueueSize }
    else config
  let config : BatchConfig :=
    match ((env OTEL_BSP_EXPORT_TIMEOUT).orElse
        (fun _ => env "OTEL_BSP_EXPORT_TIMEOUT_MILLIS")).bind parseUnsigned with
    | some maxExportTimeout => { config with maxExportTimeout := maxExportTimeout }
    | none => config
  config

/-! ### Builder setters (`BatchSpanProcessorBuilder`) — each setter only
touches the accumulated `BatchConfig`, so they are embedded as functions
on `BatchConfig`. -/

/-- Embeds `BatchSpanProcessorBuilder::with_max_queue_size`. -/
def with_max_queue_size (c : BatchConfig) (size : Nat) : BatchConfig :=
  { c with maxQueueSize := size }

/-- Embeds `BatchSpanProcessorBuilder::with_scheduled_delay`. -/
def with_scheduled_delay (c : BatchConfig) (delay : Nat) : BatchConfig :=
  { c with scheduledDelay := delay }

/-- Embeds `BatchSpanProcessorBuilder::with_max_timeout`. -/
def with_max_timeout (c : BatchConfig) (timeout : Nat) : BatchConfig :=
  { c with maxExportTimeout := timeout }

/-- Embeds `BatchSpanProcessorBuilder::with_max_export_batch_size`:
clamps the requested size against the queue size current at call time. -/
def with_max_export_batch_size (c : BatchConfig) (size : Nat) : BatchConfig :=
  if size > c.maxQueueSize then { c with maxExportBatchSize := c.maxQueueSize }
  else { c with maxExportBatchSize := size }

/-- A concrete environment in which both primary duration variables are
set to unparsable values while both `_MILLIS` fallbacks hold valid
numbers. -/
def envPrimaryUnparsable : String → Option String := fun name =>
  if name = OTEL_BSP_SCHEDULE_DELAY then some "not a number"
  else if name = "OTEL_BSP_SCHEDULE_DELAY_MILLIS" then some "7"
  else if name = OTEL_BSP_EXPORT_TIMEOUT then some "-3"
  else if name = "OTEL_BSP_EXPORT_TIMEOUT_MILLIS" then some "9"
  else none

/-! ### The batch worker -/

/-- One iteration body of the worker's drain loop:
`let batch = spans.split_off(spans.len().saturating_sub(max_export_batch_size))`
removes the tail window of up to `batchSize` spans, leaving the head.
Embedded with explicit fuel; `none` models divergence of the Rust
`while !spans.is_empty()` loop (reached when `batchSize = 0` and the
buffer is non-empty). `acc` accumulates the exported batches in export
order, mirroring `results.push(…)`. -/
def drainGo (batchSize : Nat) : Nat → List α → List (List α) → Option (List (List α))
  | _, [], acc => some acc
  | 0, _ :: _, _ => none
  | fuel + 1, s :: ss, acc =>
    let spans := s :: ss
    let cut := spans.length - batchSize
    drainGo batchSize fuel (spans.take cut) (acc ++ [spans.drop cut])

/-- The worker's drain loop over a whole buffer: the list of sub-batches
handed to `exporter.export`, in export order. The fuel `spans.length`
suffices whenever `batchSize > 0` (each iteration removes at least one
span). -/
def drainBatches (batchSize : Nat) (spans : List α) : Option (List (List α)) :=
  drainGo batchSize spans.length spans []

/-- Embeds the `BatchMessage` enum driving the worker. `flushSome` is
`Flush(Some(ch))` (an observed flush carrying a reply channel),
`flushNone` is `Flush(None)` (a timer tick). -/
inductive BatchMessage (α : Type) where
  | exportSpan (s : α)
  | flushSome
  | flushNone
  | shutdown
deriving DecidableEq, Repr

/-- The worker's externally observable actions, in order: calls to
`exporter.export(batch)`, the call to `exporter.shutdown()`, a reply
sent on a `oneshot` channel, and a `global::handle_error` report. -/
inductive WorkerEvent (α : Type) where
  | export (batch : List α)
  | exporterShutdown
  | reply (results : List ExportResult)
  | reportError (e : TraceError)
deriving DecidableEq, Repr

/-- `true` exactly on the `exporter.shutdown()` event. -/
def WorkerEvent.isShutdownCall : WorkerEvent α → Bool
  | WorkerEvent.exporterShutdown => true
  | _ => false

/-- `true` exactly on `global::handle_error` report events. -/
def WorkerEvent.isReport : WorkerEvent α → Bool
  | WorkerEvent.reportError _ => true
  | _ => false

/-- Embeds the worker loop spawned by `BatchSpanProcessor::new`, run on
the (already merged) sequence of messages and ticks. Given the exporter
oracle `exp` (the per-batch result of `export_with_timeout`), the current
message list and buffer, it returns the event trace and the final buffer
contents, or `none` if a drain loop diverges. Branches:
* `ExportSpan(span)`: push onto the buffer when `len < max_queue_size`,
  else drop the span (no event);
* `Flush(Some(ch))`: drain the buffer into sub-batches, exporting each
  and collecting the results, then send them on `ch`;
* `Flush(None)`: drain likewise, reporting each per-batch error to
  `global::handle_error`;
* `Shutdown(ch)`: drain collecting results, call `exporter.shutdown()`,
  send the results on `ch`, and `break` — remaining messages are never
  processed;
* end of stream: the loop exits with the buffer undrained. -/
def workerLoop (cfg : BatchConfig) (exp : List α → ExportResult) :
    List (BatchMessage α) → List α → Option (List (WorkerEvent α) × List α)
  | [], spans => some ([], spans)
  | BatchMessage.exportSpan s :: rest, spans =>
    if spans.length < cfg.maxQueueSize then
      workerLoop cfg exp rest (spans ++ [s])
    else
      workerLoop cfg exp rest spans
  | BatchMessage.flushSome :: rest, spans =>
    match drainBatches cfg.maxExportBatchSize spans with
    | none => none
    | some bs =>
      match workerLoop cfg exp rest [] with
      | none => none
      | some (tr, buf) =>
        some (bs.map WorkerEvent.export ++ [WorkerEvent.reply (bs.map exp)] ++ tr, buf)
  | BatchMessage.flushNone :: rest, spans =>
    match drainBatches cfg.maxExportBatchSize spans with
    | none => none
    | some bs =>
      match workerLoop cfg exp rest [] with
      | none => none
      | some (tr, buf) =>
        some (bs.flatMap (fun b =>
          WorkerEvent.export b ::
            match exp b with
            | ExportResult.ok => []
            | ExportResult.error e => [WorkerEvent.reportError e]) ++ tr, buf)
  | BatchMessage.shutdown :: _rest, spans =>
    match drainBatches cfg.maxExportBatchSize spans with
    | none => none
    | some bs =>
      some (bs.map WorkerEvent.export ++
        [WorkerEvent.exporterShutdown, WorkerEvent.reply (bs.map exp)], [])

/-! ### Drain loop: completeness, batch-size bound, ordering -/

/-- Flattening a reversed list of lists is a permutation of flattening
the list itself. -/
theorem reverse_flatten_perm {α : Type} (l : List (List α)) :
    List.Perm l.reverse.flatten l.flatten := by
  induction l with
  | nil => simp
  | cons a t ih =>
    simp only [List.reverse_cons, List.flatten_append, List.flatten_cons,
      List.flatten_nil, List.append_nil]
    exact List.perm_append_comm.trans (ih.append_left a)

/-- With a positive batch size and fuel at least the buffer length, the
drain loop terminates and produces the batches `bs` (appended to `acc`),
where: concatenating the batches in reverse export order reconstructs
the buffer exactly, every batch has length at most `batchSize`, and on a
non-empty buffer the first exported batch is the tail window
`spans.drop (spans.length - batchSize)`. -/
theorem drainGo_complete {α : Type} (batchSize : Nat) (hb : 0 < batchSize) :
    ∀ (fuel : Nat) (spans : List α) (acc : List (List α)),
      spans.length ≤ fuel →
      ∃ bs, drainGo batchSize fuel spans acc = some (acc ++ bs) ∧
        bs.reverse.flatten = spans ∧
        (∀ b ∈ bs, b.length ≤ batchSize) ∧
        (spans ≠ [] → ∃ t, bs = spans.drop (spans.length - batchSize) :: t) := by
  intro fuel
  induction fuel with
  | zero =>
    intro spans acc hle
    have hnil : spans = [] := List.length_eq_zero.mp (Nat.le_zero.mp hle)
    subst hnil
    exact ⟨[], by simp [drainGo], by simp, by simp, by simp⟩
  | succ fuel ih =>
    intro spans acc hle
    match spans with
    | [] => exact ⟨[], by simp [drainGo], by simp, by simp, by simp⟩
    | s :: ss =>
      have hcut : ((s :: ss).take ((s :: ss).length - batchSize)).length ≤ fuel := by
        simp only [List.length_take]
        simp only [List.length_cons] at hle ⊢
        omega
      obtain ⟨bs', heq, hflat, hsize, _⟩ :=
        ih ((s :: ss).take ((s :: ss).length - batchSize))
          (acc ++ [(s :: ss).drop ((s :: ss).length - batchSize)]) hcut
      refine ⟨(s :: ss).drop ((s :: ss).length - batchSize) :: bs', ?_, ?_, ?_, ?_⟩
      · simpa [drainGo] using heq
      · simp only [List.reverse_cons, List.flatten_append, List.flatten_cons,
          List.flatten_nil, List.append_nil, hflat]
        exact List.take_append_drop _ _
      · intro b hbmem
        rcases List.mem_cons.mp hbmem with hb' | hb'
        · subst hb'
          have := List.length_drop ((s :: ss).length - batchSize) (s :: ss)
          omega
        · exact hsize b hb'
      · intro _
        exact ⟨bs', rfl⟩

/-- Claim C1: on any flush entry (observed flush, timer flush, or the
shutdown drain) with a positive `max_export_batch_size`, the drain loop
terminates with sub-batches `bs` that together contain every span of the
buffer exactly once (their concatenation is a permutation of the
buffer), every sub-batch has length at most `max_export_batch_size`, and
each of the three worker branches hands exactly these sub-batches to
`exporter.export`. -/
theorem flush_delivers_every_span_once {α : Type} (cfg : BatchConfig)
    (exp : List α → ExportResult) (spans : List α) (rest : List (BatchMessage α))
    (hb : 0 < cfg.maxExportBatchSize) :
    ∃ bs, drainBatches cfg.maxExportBatchSize spans = some bs ∧
      List.Perm bs.flatten spans ∧
      (∀ b ∈ bs, b.length ≤ cfg.maxExportBatchSize) ∧
      workerLoop cfg exp (BatchMessage.flushSome :: rest) spans =
        (workerLoop cfg exp rest []).map (fun p =>
          (bs.map WorkerEvent.export ++ [WorkerEvent.reply (bs.map exp)] ++ p.1, p.2)) ∧
      workerLoop cfg exp (BatchMessage.flushNone :: rest) spans =
        (workerLoop cfg exp rest []).map (fun p =>
          (bs.flatMap (fun b =>
            WorkerEvent.export b ::
              match exp b with
              | ExportResult.ok => []
              | ExportResult.error e => [WorkerEvent.reportError e]) ++ p.1, p.2)) ∧
      workerLoop cfg exp (BatchMessage.shutdown :: rest) spans =
        some (bs.map WorkerEvent.export ++
          [WorkerEvent.exporterShutdown, WorkerEvent.reply (bs.map exp)], []) := by
  obtain ⟨bs, heq, hflat, hsize, _⟩ :=
    drainGo_complete cfg.maxExportBatchSize hb spans.length spans [] (Nat.le_refl _)
  have hdrain : drainBatches cfg.maxExportBatchSize spans = some bs := by
    simpa [drainBatches] using heq
  refine ⟨bs, hdrain, ?_, hsize, ?_, ?_, ?_⟩
  · exact hflat ▸ (reverse_flatten_perm bs).symm
  · cases h : workerLoop cfg exp rest [] with
    | none => simp [workerLoop, hdrain, h]
    | some p => simp [workerLoop, hdrain, h]
  · cases h : workerLoop cfg exp rest [] with
    | none => simp [workerLoop, hdrain, h]
    | some p => simp [workerLoop, hdrain, h]
  · simp [workerLoop, hdrain]

/-- Claim C1 witness: a concrete flush with batch size 2 over a buffer
of five spans. -/
theorem flush_delivers_every_span_once_witness :
    0 < (BatchConfig.mk 8 0 2 0).maxExportBatchSize ∧
    ∃ bs, drainBatches (BatchConfig.mk 8 0 2 0).maxExportBatchSize [1, 2, 3, 4, 5] = some bs ∧
      List.Perm bs.flatten [1, 2, 3, 4, 5] ∧
      (∀ b ∈ bs, b.length ≤ (BatchConfig.mk 8 0 2 0).maxExportBatchSize) ∧
      workerLoop (BatchConfig.mk 8 0 2 0) (fun _ => ExportResult.ok)
          (BatchMessage.flushSome :: []) [1, 2, 3, 4, 5] =
        (workerLoop (BatchConfig.mk 8 0 2 0) (fun _ => ExportResult.ok) [] []).map (fun p =>
          (bs.map WorkerEvent.export ++
            [WorkerEvent.reply (bs.map (fun _ => ExportResult.ok))] ++ p.1, p.2)) ∧
      workerLoop (BatchConfig.mk 8 0 2 0) (fun _ => ExportResult.ok)
          (BatchMessage.flushNone :: []) [1, 2, 3, 4, 5] =
        (workerLoop (BatchConfig.mk 8 0 2 0) (fun _ => ExportResult.ok) [] []).map (fun p =>
          (bs.flatMap (fun b =>
            WorkerEvent.export b ::
              match (fun (_ : List Nat) => ExportResult.ok) b with
              | ExportResult.ok => []
              | ExportResult.error e => [WorkerEvent.reportError e]) ++ p.1, p.2)) ∧
      workerLoop (BatchConfig.mk 8 0 2 0) (fun _ => ExportResult.ok)
          (BatchMessage.shutdown :: []) [1, 2, 3, 4, 5] =
        some (bs.map WorkerEvent.export ++
          [WorkerEvent.exporterShutdown,
            WorkerEvent.reply (bs.map (fun _ => ExportResult.ok))], []) :=
  ⟨by decide,
    flush_delivers_every_span_once (BatchConfig.mk 8 0 2 0) (fun _ => ExportResult.ok)
      [1, 2, 3, 4, 5] [] (by decide)⟩

/-- Claim C8: within a single flush the drain loop repeatedly removes
the tail window of up to `max_export_batch_size` spans: the first
exported sub-batch is the buffer's tail window, concatenating the
sub-batches in reverse export order reconstructs the buffer exactly (so
sub-batches are exported newest-to-oldest in buffer arrival order and
each sub-batch preserves the buffer's internal order), and no sub-batch
exceeds the batch size. -/
theorem drain_exports_newest_first {α : Type} (batchSize : Nat) (spans : List α)
    (hb : 0 < batchSize) :
    ∃ bs, drainBatches batchSize spans = some bs ∧
      bs.reverse.flatten = spans ∧
      (∀ b ∈ bs, b.length ≤ batchSize) ∧
      (spans ≠ [] → ∃ t, bs = spans.drop (spans.length - batchSize) :: t) := by
  obtain ⟨bs, heq, hflat, hsize, hhead⟩ :=
    drainGo_complete batchSize hb spans.length spans [] (Nat.le_refl _)
  exact ⟨bs, by simpa [drainBatches] using heq, hflat, hsize, hhead⟩

/-- Claim C8 witness: batch size 2 over the buffer `[10, 20, 30]`; the
first exported sub-batch is the tail window `[20, 30]`. -/
theorem drain_exports_newest_first_witness :
    0 < 2 ∧
    ∃ bs, drainBatches 2 [10, 20, 30] = some bs ∧
      bs.reverse.flatten = [10, 20, 30] ∧
      (∀ b ∈ bs, b.length ≤ 2) ∧
      (([10, 20, 30] : List Nat) ≠ [] →
        ∃ t, bs = [10, 20, 30].drop ([10, 20, 30].length - 2) :: t) :=
  ⟨by decide, drain_exports_newest_first 2 [10, 20, 30] (by decide)⟩

/-! ### ExportSpan handling: append below capacity, silent drop at capacity -/

/-- Starting from a buffer within capacity, every buffer the worker loop
leaves behind is within capacity (`len ≤ max_queue_size`). -/
theorem workerLoop_buffer_bound {α : Type} (cfg : BatchConfig) (exp : List α → ExportResult) :
    ∀ (msgs : List (BatchMessage α)) (spans : List α),
      spans.length ≤ cfg.maxQueueSize →
      ∀ tr buf, workerLoop cfg exp msgs spans = some (tr, buf) →
        buf.length ≤ cfg.maxQueueSize := by
  intro msgs
  induction msgs with
  | nil =>
    intro spans h tr buf heq
    simp only [workerLoop, Option.some.injEq, Prod.mk.injEq] at heq
    exact heq.2 ▸ h
  | cons m rest ih =>
    intro spans h tr buf heq
    cases m with
    | exportSpan s =>
      by_cases hlt : spans.length < cfg.maxQueueSize
      · simp only [workerLoop, if_pos hlt] at heq
        have hlen : (spans ++ [s]).length ≤ cfg.maxQueueSize := by
          simp only [List.length_append, List.length_cons, List.length_nil]
          omega
        exact ih (spans ++ [s]) hlen tr buf heq
      · simp only [workerLoop, if_neg hlt] at heq
        exact ih spans h tr buf heq
    | flushSome =>
      simp only [workerLoop] at heq
      cases hd : drainBatches cfg.maxExportBatchSize spans with
      | none => rw [hd] at heq; cases heq
      | some bs =>
        rw [hd] at heq
        cases hw : workerLoop cfg exp rest [] with
        | none => rw [hw] at heq; cases heq
        | some p =>
          rw [hw] at heq
          simp only [Option.some.injEq, Prod.mk.injEq] at heq
          exact heq.2 ▸ ih [] (by simp) p.1 p.2 (by rw [hw])
    | flushNone =>
      simp only [workerLoop] at heq
      cases hd : drainBatches cfg.maxExportBatchSize spans with
      | none => rw [hd] at heq; cases heq
      | some bs =>
        rw [hd] at heq
        cases hw : workerLoop cfg exp rest [] with
        | none => rw [hw] at heq; cases heq
        | some p =>
          rw [hw] at heq
          simp only [Option.some.injEq, Prod.mk.injEq] at heq
          exact heq.2 ▸ ih [] (by simp) p.1 p.2 (by rw [hw])
    | shutdown =>
      simp only [workerLoop] at heq
      cases hd : drainBatches cfg.maxExportBatchSize spans with
      | none => rw [hd] at heq; cases heq
      | some bs =>
        rw [hd] at heq
        simp only [Option.some.injEq, Prod.mk.injEq] at heq
        rw [← heq.2]
        exact Nat.zero_le _

/-- Claim C2 (amended): processing `ExportSpan(s)` appends the span when
the buffer is strictly below `max_queue_size`, and otherwise drops it
silently — the buffer, the event trace, and the rest of the run are
unchanged, and in particular no error is reported to the global error
sink; starting within capacity, the buffer length never exceeds
`max_queue_size`. -/
theorem export_span_append_or_silent_drop {α : Type} (cfg : BatchConfig)
    (exp : List α → ExportResult) (rest msgs : List (BatchMessage α))
    (spans : List α) (s : α) :
    (spans.length < cfg.maxQueueSize →
      workerLoop cfg exp (BatchMessage.exportSpan s :: rest) spans =
        workerLoop cfg exp rest (spans ++ [s])) ∧
    (cfg.maxQueueSize ≤ spans.length →
      workerLoop cfg exp (BatchMessage.exportSpan s :: rest) spans =
        workerLoop cfg exp rest spans) ∧
    (spans.length ≤ cfg.maxQueueSize →
      ∀ tr buf, workerLoop cfg exp msgs spans = some (tr, buf) →
        buf.length ≤ cfg.maxQueueSize) := by
  refine ⟨fun hlt => ?_, fun hge => ?_, fun h => workerLoop_buffer_bound cfg exp msgs spans h⟩
  · simp [workerLoop, hlt]
  · simp [workerLoop, Nat.not_lt.mpr hge]

/-- Claim C2 witness: with `max_queue_size = 1`, a span arriving at an
empty buffer is appended, a span arriving at a full buffer is dropped
with the run unchanged, and the final buffer stays within capacity. -/
theorem export_span_append_or_silent_drop_witness :
    (workerLoop (BatchConfig.mk 1 0 1 0) (fun _ => ExportResult.ok)
        [BatchMessage.exportSpan 5] ([] : List Nat) =
      workerLoop (BatchConfig.mk 1 0 1 0) (fun _ => ExportResult.ok) [] ([] ++ [5])) ∧
    (workerLoop (BatchConfig.mk 1 0 1 0) (fun _ => ExportResult.ok)
        [BatchMessage.exportSpan 5] [7] =
      workerLoop (BatchConfig.mk 1 0 1 0) (fun _ => ExportResult.ok) [] [7]) ∧
    (∀ tr buf, workerLoop (BatchConfig.mk 1 0 1 0) (fun _ => ExportResult.ok)
        [BatchMessage.exportSpan 9] [7] = some (tr, buf) →
      buf.length ≤ (BatchConfig.mk 1 0 1 0).maxQueueSize) :=
  ⟨(export_span_append_or_silent_drop (BatchConfig.mk 1 0 1 0) (fun _ => ExportResult.ok)
      [] [] [] 5).1 (by decide),
    (export_span_append_or_silent_drop (BatchConfig.mk 1 0 1 0) (fun _ => ExportResult.ok)
      [] [] [7] 5).2.1 (by decide),
    (export_span_append_or_silent_drop (BatchConfig.mk 1 0 1 0) (fun _ => ExportResult.ok)
      [] [BatchMessage.exportSpan 9] [7] 9).2.2 (by decide)⟩

/-- Claim C2 counterexample: with `max_queue_size = 1`, the second
`ExportSpan` overflows and the span is dropped — the subsequent observed
flush exports only the first span — yet the whole trace contains no
report to the global error sink, contradicting the claim that overflow
"is reported to the global error sink". -/
theorem export_span_overflow_unreported :
    workerLoop (BatchConfig.mk 1 0 1 0) (fun _ => ExportResult.ok)
        [BatchMessage.exportSpan 0, BatchMessage.exportSpan 1, BatchMessage.flushSome]
        ([] : List Nat) =
      some ([WorkerEvent.export [0], WorkerEvent.reply [ExportResult.ok]], []) ∧
    List.countP WorkerEvent.isReport
      [WorkerEvent.export [0], WorkerEvent.reply ([ExportResult.ok] : List ExportResult)] = 0 := by
  constructor
  · rfl
  · rfl

/-! ### Shutdown: drain, single exporter shutdown, reply, exit -/

/-- Export-call events carry no `exporter.shutdown()` call. -/
theorem countP_shutdownCall_map_export {α : Type} (bs : List (List α)) :
    (bs.map WorkerEvent.export).countP WorkerEvent.isShutdownCall = 0 := by
  rw [List.countP_eq_zero]
  intro e he
  rcases List.mem_map.mp he with ⟨b, _, rfl⟩
  simp [WorkerEvent.isShutdownCall]

/-- The events of an unobserved flush (exports interleaved with error
reports) carry no `exporter.shutdown()` call. -/
theorem countP_shutdownCall_flushNone_events {α : Type} (exp : List α → ExportResult)
    (bs : List (List α)) :
    (bs.flatMap (fun b =>
      WorkerEvent.export b ::
        match exp b with
        | ExportResult.ok => []
        | ExportResult.error e => [WorkerEvent.reportError e])).countP
      WorkerEvent.isShutdownCall = 0 := by
  rw [List.countP_eq_zero]
  intro e he
  rcases List.mem_flatMap.mp he with ⟨b, _, hmem⟩
  cases hexp : exp b with
  | ok =>
    rw [hexp] at hmem
    simp only [List.mem_cons, List.not_mem_nil, or_false] at hmem
    subst hmem
    simp [WorkerEvent.isShutdownCall]
  | error er =>
    rw [hexp] at hmem
    simp only [List.mem_cons, List.not_mem_nil, or_false] at hmem
    rcases hmem with rfl | rfl
    · simp [WorkerEvent.isShutdownCall]
    · simp [WorkerEvent.isShutdownCall]

/-- Splitting a worker run at the first `Shutdown` message: the run of
`pre ++ Shutdown :: post` produces a prefix trace `tr` from `pre` free of
`exporter.shutdown()` calls, followed by the shutdown drain's exports,
the single `exporter.shutdown()` call and the reply — and the messages
`post` behind `Shutdown` contribute nothing (the run equals that of
`pre ++ [Shutdown]`). -/
theorem workerLoop_shutdown_split {α : Type} (cfg : BatchConfig)
    (exp : List α → ExportResult) (hb : 0 < cfg.maxExportBatchSize) :
    ∀ (pre : List (BatchMessage α)) (post : List (BatchMessage α)) (spans : List α),
      (∀ m ∈ pre, m ≠ BatchMessage.shutdown) →
      ∃ (tr : List (WorkerEvent α)) (bs : List (List α)),
        workerLoop cfg exp (pre ++ BatchMessage.shutdown :: post) spans =
          some (tr ++ bs.map WorkerEvent.export ++
            [WorkerEvent.exporterShutdown, WorkerEvent.reply (bs.map exp)], []) ∧
        workerLoop cfg exp (pre ++ [BatchMessage.shutdown]) spans =
          some (tr ++ bs.map WorkerEvent.export ++
            [WorkerEvent.exporterShutdown, WorkerEvent.reply (bs.map exp)], []) ∧
        tr.countP WorkerEvent.isShutdownCall = 0 := by
  intro pre
  induction pre with
  | nil =>
    intro post spans _
    obtain ⟨bs, heq, _, _, _⟩ :=
      drainGo_complete cfg.maxExportBatchSize hb spans.length spans [] (Nat.le_refl _)
    have hdrain : drainBatches cfg.maxExportBatchSize spans = some bs := by
      simpa [drainBatches] using heq
    refine ⟨[], bs, ?_, ?_, by simp⟩
    · simp [workerLoop, hdrain]
    · simp [workerLoop, hdrain]
  | cons m pre' ih =>
    intro post spans hpre
    have hpre' : ∀ m' ∈ pre', m' ≠ BatchMessage.shutdown :=
      fun m' hm' => hpre m' (List.mem_cons_of_mem m hm')
    cases m with
    | exportSpan s =>
      by_cases hlt : spans.length < cfg.maxQueueSize
      · obtain ⟨tr, bs, h1, h2, h3⟩ := ih post (spans ++ [s]) hpre'
        exact ⟨tr, bs, by simpa [workerLoop, hlt] using h1,
          by simpa [workerLoop, hlt] using h2, h3⟩
      · obtain ⟨tr, bs, h1, h2, h3⟩ := ih post spans hpre'
        exact ⟨tr, bs, by simpa [workerLoop, hlt] using h1,
          by simpa [workerLoop, hlt] using h2, h3⟩
    | flushSome =>
      obtain ⟨bs0, heq0, _, _, _⟩ :=
        drainGo_complete cfg.maxExportBatchSize hb spans.length spans [] (Nat.le_refl _)
      have hdrain0 : drainBatches cfg.maxExportBatchSize spans = some bs0 := by
        simpa [drainBatches] using heq0
      obtain ⟨tr, bs, h1, h2, h3⟩ := ih post [] hpre'
      refine ⟨bs0.map WorkerEvent.export ++ [WorkerEvent.reply (bs0.map exp)] ++ tr, bs,
        ?_, ?_, ?_⟩
      · simp only [List.cons_append, workerLoop, hdrain0, List.append_eq, h1,
          List.append_assoc, List.nil_append, List.singleton_append, List.append_nil]
      · simp only [List.cons_append, workerLoop, hdrain0, List.append_eq, h2,
          List.append_assoc, List.nil_append, List.singleton_append, List.append_nil]
      · simp only [List.countP_append, countP_shutdownCall_map_export, h3]
        simp [WorkerEvent.isShutdownCall]
    | flushNone =>
      obtain ⟨bs0, heq0, _, _, _⟩ :=
        drainGo_complete cfg.maxExportBatchSize hb spans.length spans [] (Nat.le_refl _)
      have hdrain0 : drainBatches cfg.maxExportBatchSize spans = some bs0 := by
        simpa [drainBatches] using heq0
      obtain ⟨tr, bs, h1, h2, h3⟩ := ih post [] hpre'
      refine ⟨(bs0.flatMap (fun b =>
          WorkerEvent.export b ::
            match exp b with
            | ExportResult.ok => []
            | ExportResult.error e => [WorkerEvent.reportError e])) ++ tr, bs, ?_, ?_, ?_⟩
      · simp only [List.cons_append, workerLoop, hdrain0, List.append_eq, h1,
          List.append_assoc, List.nil_append, List.singleton_append, List.append_nil]
      · simp only [List.cons_append, workerLoop, hdrain0, List.append_eq, h2,
          List.append_assoc, List.nil_append, List.singleton_append, List.append_nil]
      · simp only [List.countP_append, countP_shutdownCall_flushNone_events, h3]
    | shutdown =>
      exact absurd rfl (hpre BatchMessage.shutdown (List.mem_cons_self _ _))

/-- Claim C3: when the worker processes `Shutdown(reply)` (with a
positive batch size so the drain terminates), it drains the buffer into
sub-batches `bs` collecting the per-batch results, performs exactly one
`exporter.shutdown()` call in the entire run, sends the collected result
list on the reply channel as its final action, and exits the loop: the
run is identical whatever messages follow the `Shutdown`, and the trace
ends at the reply, so no further message is processed and no further
exporter call happens. -/
theorem shutdown_once_reply_and_exit {α : Type} (cfg : BatchConfig)
    (exp : List α → ExportResult) (pre post : List (BatchMessage α)) (spans : List α)
    (hb : 0 < cfg.maxExportBatchSize)
    (hpre : ∀ m ∈ pre, m ≠ BatchMessage.shutdown) :
    ∃ (tr : List (WorkerEvent α)) (bs : List (List α)),
      workerLoop cfg exp (pre ++ BatchMessage.shutdown :: post) spans =
        some (tr ++ bs.map WorkerEvent.export ++
          [WorkerEvent.exporterShutdown, WorkerEvent.reply (bs.map exp)], []) ∧
      workerLoop cfg exp (pre ++ [BatchMessage.shutdown]) spans =
        some (tr ++ bs.map WorkerEvent.export ++
          [WorkerEvent.exporterShutdown, WorkerEvent.reply (bs.map exp)], []) ∧
      (tr ++ bs.map WorkerEvent.export ++
        [WorkerEvent.exporterShutdown, WorkerEvent.reply (bs.map exp)]).countP
          WorkerEvent.isShutdownCall = 1 := by
  obtain ⟨tr, bs, h1, h2, h3⟩ := workerLoop_shutdown_split cfg exp hb pre post spans hpre
  refine ⟨tr, bs, h1, h2, ?_⟩
  simp only [List.countP_append, h3, countP_shutdownCall_map_export, List.countP_cons]
  simp [WorkerEvent.isShutdownCall, List.countP, List.countP.go]

/-- Claim C3 witness: a concrete run with one span enqueued before the
shutdown and one message after it. -/
theorem shutdown_once_reply_and_exit_witness :
    0 < (BatchConfig.mk 4 0 2 0).maxExportBatchSize ∧
    (∀ m ∈ [BatchMessage.exportSpan 3], m ≠ BatchMessage.shutdown) ∧
    ∃ (tr : List (WorkerEvent Nat)) (bs : List (List Nat)),
      workerLoop (BatchConfig.mk 4 0 2 0) (fun _ => ExportResult.ok)
          ([BatchMessage.exportSpan 3] ++
            BatchMessage.shutdown :: [BatchMessage.exportSpan 9]) [] =
        some (tr ++ bs.map WorkerEvent.export ++
          [WorkerEvent.exporterShutdown,
            WorkerEvent.reply (bs.map (fun _ => ExportResult.ok))], []) ∧
      workerLoop (BatchConfig.mk 4 0 2 0) (fun _ => ExportResult.ok)
          ([BatchMessage.exportSpan 3] ++ [BatchMessage.shutdown]) [] =
        some (tr ++ bs.map WorkerEvent.export ++
          [WorkerEvent.exporterShutdown,
            WorkerEvent.reply (bs.map (fun _ => ExportResult.ok))], []) ∧
      (tr ++ bs.map WorkerEvent.export ++
        [WorkerEvent.exporterShutdown,
          WorkerEvent.reply (bs.map (fun _ => ExportResult.ok))]).countP
        WorkerEvent.isShutdownCall = 1 :=
  ⟨by decide, by decide,
    shutdown_once_reply_and_exit (BatchConfig.mk 4 0 2 0) (fun _ => ExportResult.ok)
      [BatchMessage.exportSpan 3] [BatchMessage.exportSpan 9] [] (by decide) (by decide)⟩

/-! ### Caller-side result folding (`force_flush` / `shutdown`) -/

/-- Claim C5: folding a worker reply list with the caller's
`for result in … { result?; }` loop yields success when every per-batch
result succeeded, and the first error of the list (in list order) when
any element is an error. -/
theorem caller_gets_first_error (rs pre suf : List ExportResult) (e : TraceError) :
    ((∀ r ∈ rs, r = ExportResult.ok) → collectResults rs = ExportResult.ok) ∧
    ((∀ r ∈ pre, r = ExportResult.ok) →
      collectResults (pre ++ ExportResult.error e :: suf) = ExportResult.error e) := by
  constructor
  · intro hall
    induction rs with
    | nil => rfl
    | cons r rest ih =>
      have hr : r = ExportResult.ok := hall r (List.mem_cons_self _ _)
      subst hr
      exact ih fun r hr => hall r (List.mem_cons_of_mem _ hr)
  · intro hall
    induction pre with
    | nil => rfl
    | cons r rest ih =>
      have hr : r = ExportResult.ok := hall r (List.mem_cons_self _ _)
      subst hr
      exact ih fun r hr => hall r (List.mem_cons_of_mem _ hr)

/-- Claim C5 witness: an all-success list folds to success, and a list
whose second element is the first error folds to exactly that error. -/
theorem caller_gets_first_error_witness :
    ((∀ r ∈ [ExportResult.ok, ExportResult.ok], r = ExportResult.ok) →
      collectResults [ExportResult.ok, ExportResult.ok] = ExportResult.ok) ∧
    ((∀ r ∈ [ExportResult.ok], r = ExportResult.ok) →
      collectResults ([ExportResult.ok] ++
          ExportResult.error (TraceError.exportTimedOut 5) ::
            [ExportResult.error (TraceError.other "later"), ExportResult.ok]) =
        ExportResult.error (TraceError.exportTimedOut 5)) :=
  caller_gets_first_error [ExportResult.ok, ExportResult.ok] [ExportResult.ok]
    [ExportResult.error (TraceError.other "later"), ExportResult.ok]
    (TraceError.exportTimedOut 5)

/-! ### Export timeout race -/

/-- Claim C4: `export_with_timeout` maps the winner of
`futures::future::select(export, timeout)` to the sub-batch result: if
the sleep finishes first the result is an `ExportTimedOut` error
carrying the configured `max_export_timeout`, and if the export future
finishes first its own result — success or error — is returned
unchanged. -/
theorem export_with_timeout_race (timeOut : Nat) (r : ExportResult) :
    export_with_timeout timeOut SelectOutcome.right =
      ExportResult.error (TraceError.exportTimedOut timeOut) ∧
    export_with_timeout timeOut (SelectOutcome.left r) = r :=
  ⟨rfl, rfl⟩

/-! ### Empty-buffer flush -/

/-- Claim C10: when the buffer is empty at a `Flush(Some(reply))` or
`Shutdown(reply)`, the drain produces no sub-batch, so `exporter.export`
is never called: the observed flush contributes exactly one
`reply []` event to the trace, the shutdown run's whole trace is the
`exporter.shutdown()` call followed by `reply []`, and the blocked
caller folding the empty reply list receives success. -/
theorem empty_buffer_flush_no_export {α : Type} (cfg : BatchConfig)
    (exp : List α → ExportResult) (rest : List (BatchMessage α)) :
    drainBatches cfg.maxExportBatchSize ([] : List α) = some [] ∧
    workerLoop cfg exp (BatchMessage.flushSome :: rest) [] =
      (workerLoop cfg exp rest []).map (fun p => (WorkerEvent.reply [] :: p.1, p.2)) ∧
    workerLoop cfg exp (BatchMessage.shutdown :: rest) [] =
      some ([WorkerEvent.exporterShutdown, WorkerEvent.reply []], []) ∧
    collectResults [] = ExportResult.ok := by
  have hdrain : drainBatches cfg.maxExportBatchSize ([] : List α) = some [] := by
    simp [drainBatches, drainGo]
  refine ⟨hdrain, ?_, ?_, rfl⟩
  · cases h : workerLoop cfg exp rest [] with
    | none => simp [workerLoop, hdrain, h]
    | some p => simp [workerLoop, hdrain, h]
  · simp [workerLoop, hdrain]

/-! ### Configuration resolution -/

/-- Field-by-field characterisation of `BatchConfig::default()`: each
field is the parsed environment override when present and parsable,
otherwise the documented default; `max_export_batch_size` is additionally
clamped to the resolved `max_queue_size`. -/
theorem batchConfigDefault_fields (env : String → Option String) :
    (batchConfigDefault env).maxQueueSize =
      ((env OTEL_BSP_MAX_QUEUE_SIZE).bind parseUnsigned).getD
        OTEL_BSP_MAX_QUEUE_SIZE_DEFAULT ∧
    (batchConfigDefault env).scheduledDelay =
      (((env OTEL_BSP_SCHEDULE_DELAY).orElse
          (fun _ => env "OTEL_BSP_SCHEDULE_DELAY_MILLIS")).bind parseUnsigned).getD
        OTEL_BSP_SCHEDULE_DELAY_DEFAULT ∧
    (batchConfigDefault env).maxExportBatchSize =
      min (((env OTEL_BSP_MAX_EXPORT_BATCH_SIZE).bind parseUnsigned).getD
          OTEL_BSP_MAX_EXPORT_BATCH_SIZE_DEFAULT)
        (((env OTEL_BSP_MAX_QUEUE_SIZE).bind parseUnsigned).getD
          OTEL_BSP_MAX_QUEUE_SIZE_DEFAULT) ∧
    (batchConfigDefault env).maxExportTimeout =
      (((env OTEL_BSP_EXPORT_TIMEOUT).orElse
          (fun _ => env "OTEL_BSP_EXPORT_TIMEOUT_MILLIS")).bind parseUnsigned).getD
        OTEL_BSP_EXPORT_TIMEOUT_DEFAULT := by
  unfold batchConfigDefault
  cases hq : (env OTEL_BSP_MAX_QUEUE_SIZE).bind parseUnsigned <;>
    cases hd : ((env OTEL_BSP_SCHEDULE_DELAY).orElse
      (fun _ => env "OTEL_BSP_SCHEDULE_DELAY_MILLIS")).bind parseUnsigned <;>
    cases hbs : (env OTEL_BSP_MAX_EXPORT_BATCH_SIZE).bind parseUnsigned <;>
    cases ht : ((env OTEL_BSP_EXPORT_TIMEOUT).orElse
      (fun _ => env "OTEL_BSP_EXPORT_TIMEOUT_MILLIS")).bind parseUnsigned <;>
    simp only [hq, hd, hbs, ht, Option.getD_some, Option.getD_none,
      OTEL_BSP_MAX_QUEUE_SIZE_DEFAULT, OTEL_BSP_SCHEDULE_DELAY_DEFAULT,
      OTEL_BSP_MAX_EXPORT_BATCH_SIZE_DEFAULT, OTEL_BSP_EXPORT_TIMEOUT_DEFAULT] <;>
    split_ifs <;>
    simp_all <;>
    omega

/-- Claim C6: `BatchConfig::default()` yields the documented defaults
(`max_queue_size` 2048, `scheduled_delay` 5000 ms,
`max_export_batch_size` 512, `max_export_timeout` 30000 ms) overridden
by any parsable environment variable value; an unset or unparsable
variable leaves the default; and after the overrides
`max_export_batch_size` equals the minimum of the (possibly overridden)
batch size and queue size. -/
theorem batchConfig_default_resolution (env : String → Option String) :
    (batchConfigDefault env).maxQueueSize =
      ((env OTEL_BSP_MAX_QUEUE_SIZE).bind parseUnsigned).getD 2048 ∧
    (batchConfigDefault env).scheduledDelay =
      (((env OTEL_BSP_SCHEDULE_DELAY).orElse
          (fun _ => env "OTEL_BSP_SCHEDULE_DELAY_MILLIS")).bind parseUnsigned).getD 5000 ∧
    (batchConfigDefault env).maxExportBatchSize =
      min (((env OTEL_BSP_MAX_EXPORT_BATCH_SIZE).bind parseUnsigned).getD 512)
        (((env OTEL_BSP_MAX_QUEUE_SIZE).bind parseUnsigned).getD 2048) ∧
    (batchConfigDefault env).maxExportTimeout =
      (((env OTEL_BSP_EXPORT_TIMEOUT).orElse
          (fun _ => env "OTEL_BSP_EXPORT_TIMEOUT_MILLIS")).bind parseUnsigned).getD 30000 :=
  batchConfigDefault_fields env

/-- Claim C9: when the primary duration variable
(`OTEL_BSP_SCHEDULE_DELAY`, respectively `OTEL_BSP_EXPORT_TIMEOUT`) is
set but unparsable, the `_MILLIS` fallback is never consulted — whatever
value it holds, the default is kept (the `or_else` chain short-circuits
on the present primary value and the failed parse discards it). -/
theorem unparsable_primary_blocks_fallback (env : String → Option String)
    (sd st : String)
    (h1 : env OTEL_BSP_SCHEDULE_DELAY = some sd) (h2 : parseUnsigned sd = none)
    (h3 : env OTEL_BSP_EXPORT_TIMEOUT = some st) (h4 : parseUnsigned st = none) :
    (batchConfigDefault env).scheduledDelay = OTEL_BSP_SCHEDULE_DELAY_DEFAULT ∧
    (batchConfigDefault env).maxExportTimeout = OTEL_BSP_EXPORT_TIMEOUT_DEFAULT := by
  obtain ⟨_, hdelay, _, htimeout⟩ := batchConfigDefault_fields env
  constructor
  · rw [hdelay, h1]
    simp [Option.orElse, h2]
  · rw [htimeout, h3]
    simp [Option.orElse, h4]

/-- Claim C9 witness: in `envPrimaryUnparsable` both primaries are set
to unparsable strings while both `_MILLIS` fallbacks hold valid numbers,
yet both durations resolve to their defaults. -/
theorem unparsable_primary_blocks_fallback_witness :
    envPrimaryUnparsable OTEL_BSP_SCHEDULE_DELAY = some "not a number" ∧
    parseUnsigned "not a number" = none ∧
    envPrimaryUnparsable "OTEL_BSP_SCHEDULE_DELAY_MILLIS" = some "7" ∧
    parseUnsigned "7" = some 7 ∧
    (batchConfigDefault envPrimaryUnparsable).scheduledDelay =
      OTEL_BSP_SCHEDULE_DELAY_DEFAULT ∧
    (batchConfigDefault envPrimaryUnparsable).maxExportTimeout =
      OTEL_BSP_EXPORT_TIMEOUT_DEFAULT :=
  ⟨by decide, by decide, by decide, by decide,
    (unparsable_primary_blocks_fallback envPrimaryUnparsable "not a number" "-3"
      (by decide) (by decide) (by decide) (by decide)).1,
    (unparsable_primary_blocks_fallback envPrimaryUnparsable "not a number" "-3"
      (by decide) (by decide) (by decide) (by decide)).2⟩

/-! ### Builder invariant -/

/-- Claim C7 counterexample: starting from the default configuration
(batch size 512, queue size 2048) the single setter call
`with_max_queue_size(100)` leaves `max_export_batch_size = 512` above
`max_queue_size = 100` — the setter does not re-clamp, so the claimed
invariant `batch_size ≤ queue_size` is not preserved by every setter
sequence. -/
theorem builder_shrink_queue_breaks_invariant :
    ¬ ((with_max_queue_size (batchConfigDefault (fun _ => none)) 100).maxExportBatchSize ≤
      (with_max_queue_size (batchConfigDefault (fun _ => none)) 100).maxQueueSize) := by
  decide

/-- Claim C7 (amended): the builder's starting configuration
(`BatchConfig::default()`) satisfies `batch_size ≤ queue_size`;
`with_max_export_batch_size(n)` clamps `n` against the queue size
current at the time of the call and so (re-)establishes the invariant;
`with_scheduled_delay` and `with_max_timeout` preserve it; but
`with_max_queue_size(q)` does not re-clamp and preserves it only when
the current batch size is at most `q` — a later `with_max_queue_size`
smaller than the current batch size violates the invariant. -/
theorem builder_clamp_and_preservation (env : String → Option String)
    (c : BatchConfig) (n d t q : Nat) :
    (batchConfigDefault env).maxExportBatchSize ≤ (batchConfigDefault env).maxQueueSize ∧
    (with_max_export_batch_size c n).maxExportBatchSize ≤
      (with_max_export_batch_size c n).maxQueueSize ∧
    (c.maxExportBatchSize ≤ c.maxQueueSize →
      (with_scheduled_delay c d).maxExportBatchSize ≤
        (with_scheduled_delay c d).maxQueueSize) ∧
    (c.maxExportBatchSize ≤ c.maxQueueSize →
      (with_max_timeout c t).maxExportBatchSize ≤ (with_max_timeout c t).maxQueueSize) ∧
    (c.maxExportBatchSize ≤ q →
      (with_max_queue_size c q).maxExportBatchSize ≤
        (with_max_queue_size c q).maxQueueSize) := by
  obtain ⟨hq, _, hb, _⟩ := batchConfigDefault_fields env
  refine ⟨?_, ?_, fun h => ?_, fun h => ?_, fun h => ?_⟩
  · rw [hq, hb]
    exact Nat.min_le_right _ _
  · simp only [with_max_export_batch_size]
    split_ifs with hgt
    · simp
    · simp only []
      omega
  · simpa [with_scheduled_delay] using h
  · simpa [with_max_timeout] using h
  · simpa [with_max_queue_size] using h

/-- Claim C7 amended witness: concrete checks of the clamp, both
preservations, and the guarded queue-shrink case. -/
theorem builder_clamp_and_preservation_witness :
    (batchConfigDefault (fun _ => none)).maxExportBatchSize ≤
      (batchConfigDefault (fun _ => none)).maxQueueSize ∧
    (with_max_export_batch_size (BatchConfig.mk 10 0 5 0) 17).maxExportBatchSize ≤
      (with_max_export_batch_size (BatchConfig.mk 10 0 5 0) 17).maxQueueSize ∧
    (with_scheduled_delay (BatchConfig.mk 10 0 5 0) 99).maxExportBatchSize ≤
      (with_scheduled_delay (BatchConfig.mk 10 0 5 0) 99).maxQueueSize ∧
    (with_max_timeout (BatchConfig.mk 10 0 5 0) 99).maxExportBatchSize ≤
      (with_max_timeout (BatchConfig.mk 10 0 5 0) 99).maxQueueSize ∧
    (with_max_queue_size (BatchConfig.mk 10 0 5 0) 6).maxExportBatchSize ≤
      (with_max_queue_size (BatchConfig.mk 10 0 5 0) 6).maxQueueSize :=
  have h := builder_clamp_and_preservation (fun _ => none) (BatchConfig.mk 10 0 5 0) 17 99 99 6
  ⟨h.1, h.2.1, h.2.2.1 (by decide), h.2.2.2.1 (by decide), h.2.2.2.2 (by decide)⟩
